import Mathlib

/-!
Verification of the sampling-and-snapshot engine declared in
src/ReaperApp/Sources/CHeaders/cpu_monitor_core.h.  The repository ships only
the boundary header; the engine behind it is modelled here from the design
document (spec.md), faithfully to its words, and the claims are settled
against that model.  The header itself is embedded verbatim as data at the
end of the development.
-/

namespace Reaper

/-- Modelled from the spec: the raw per-process reading the Raw Sampler
returns (the sampler implementation is not in the repository).  `busyTicks`
is the cumulative busy-tick counter of the process, `startTime` its start
timestamp, both in the same time unit as `Sample.timestamp`. -/
structure RawProc where
  pid : Nat
  name : String
  busyTicks : Nat
  memoryMb : ℚ
  status : String
  parentPid : Nat
  threadCount : Nat
  startTime : Nat
deriving DecidableEq

/-- Modelled from the spec: raw CPU counters returned by the Raw Sampler
(per-core busy/total ticks, load averages, clock frequency); the sampler
implementation is not in the repository. -/
structure RawCpu where
  coreBusy : List Nat
  coreTotal : List Nat
  loadAvg1 : ℚ
  loadAvg5 : ℚ
  loadAvg15 : ℚ
  frequencyMhz : Nat
deriving DecidableEq

/-- Modelled from the spec: a Sample is one timestamped raw reading set
(process table plus CPU counters). -/
structure Sample where
  procs : List RawProc
  cpu : RawCpu
  timestamp : Nat
deriving DecidableEq

/-- Modelled from the spec: the Sample Store holds the two most recent
samples; after `monitor_init` the current sample exists and the previous one
may not yet. -/
structure MonitorState where
  previous : Option Sample
  current : Sample
deriving DecidableEq

/-- Modelled from the spec: `monitor_init` takes one raw sample immediately
so that the first refresh has a baseline (the C implementation is not in the
repository). -/
def monitor_init (s : Sample) : MonitorState :=
  ⟨none, s⟩

/-- Modelled from the spec: `monitor_refresh` advances the Sample Store,
moving current into previous and taking a new raw sample; a total
SamplingError (`none`) is fatal to the current refresh and leaves the
previous snapshot as the last-good state.  The C implementation is not in
the repository. -/
def monitor_refresh (st : MonitorState) (r : Option Sample) : MonitorState :=
  match r with
  | none => st
  | some s => ⟨some st.current, s⟩

/-- A state reachable after `monitor_init` followed by any sequence of
`monitor_refresh` calls (each element of `rs` is that refresh's sampler
outcome). -/
def monitor_run (s₀ : Sample) (rs : List (Option Sample)) : MonitorState :=
  rs.foldl monitor_refresh (monitor_init s₀)

/-- The process list of the previous sample, empty when no previous sample
exists yet. -/
def prevProcs (st : MonitorState) : List RawProc :=
  match st.previous with
  | none => []
  | some s => s.procs

/-- Elapsed wall time between the previous and the current sample. -/
def elapsedTime (st : MonitorState) : Nat :=
  match st.previous with
  | none => 0
  | some s => st.current.timestamp - s.timestamp

/-- Look up a pid in the previous sample's process list. -/
def findPrev (prev : List RawProc) (pid : Nat) : Option RawProc :=
  prev.find? (fun q => q.pid == pid)

/-- Modelled from the spec: per-process CPU usage is this process's
busy-tick delta between previous and current, divided by the elapsed wall
time between the two samples, times 100, clamped to be never negative; a
process present only in the current sample gets usage 0.  The C
implementation is not in the repository. -/
def procUsage (prev : List RawProc) (elapsed : Nat) (p : RawProc) : ℚ :=
  match findPrev prev p.pid with
  | none => 0
  | some q => max 0 (((p.busyTicks : ℚ) - (q.busyTicks : ℚ)) / (elapsed : ℚ) * 100)

/-- The boundary record for one process (CProcessInfo in the header). -/
structure CProcessInfo where
  pid : Nat
  name : String
  cpu_usage : ℚ
  memory_mb : ℚ
  status : String
  parent_pid : Nat
  thread_count : Nat
  run_time : Nat
deriving DecidableEq

/-- Build the boundary record of one raw process against the previous
sample. -/
def mkRecord (prev : List RawProc) (elapsed : Nat) (now : Nat) (p : RawProc) :
    CProcessInfo :=
  ⟨p.pid, p.name, procUsage prev elapsed p, p.memoryMb, p.status,
    p.parentPid, p.threadCount, now - p.startTime⟩

/-- The boundary process snapshot (CProcessList in the header). -/
structure CProcessList where
  processes : List CProcessInfo
  count : Nat
deriving DecidableEq

/-- Modelled from the spec: `get_all_processes` returns every process of the
current sample with derived metrics, in discovery order; exited processes
(present only in the previous sample) are dropped entirely.  The C
implementation is not in the repository. -/
def get_all_processes (st : MonitorState) : CProcessList :=
  ⟨(st.current.procs.map
      (mkRecord (prevProcs st) (elapsedTime st) st.current.timestamp)),
   (st.current.procs.map
      (mkRecord (prevProcs st) (elapsedTime st) st.current.timestamp)).length⟩

/-- Modelled from the spec: `get_high_cpu_processes` reuses the same
computed snapshot and filters to records with cpu_usage strictly above the
threshold, preserving the base snapshot's order.  The C implementation is
not in the repository. -/
def get_high_cpu_processes (st : MonitorState) (threshold : ℚ) : CProcessList :=
  ⟨((get_all_processes st).processes.filter (fun r => threshold < r.cpu_usage)),
   ((get_all_processes st).processes.filter (fun r => threshold < r.cpu_usage)).length⟩

/-- Number of cores reported by the current sample. -/
def coreCount (st : MonitorState) : Nat :=
  st.current.cpu.coreTotal.length

/-- Modelled from the spec: system-wide total usage is the sum of per-core
busy-tick deltas over the sum of per-core total-tick deltas, times 100; it
is 0 when no previous sample exists.  The C implementation is not in the
repository. -/
def totalUsage (st : MonitorState) : ℚ :=
  match st.previous with
  | none => 0
  | some pr =>
      ((st.current.cpu.coreBusy.sum : ℚ) - (pr.cpu.coreBusy.sum : ℚ))
        / ((st.current.cpu.coreTotal.sum : ℚ) - (pr.cpu.coreTotal.sum : ℚ)) * 100

/-- The boundary CPU metrics record (CCpuMetrics in the header). -/
structure CCpuMetrics where
  total_usage : ℚ
  core_count : Nat
  load_avg_1 : ℚ
  load_avg_5 : ℚ
  load_avg_15 : ℚ
  frequency_mhz : Nat
deriving DecidableEq

/-- Modelled from the spec: `get_cpu_metrics` returns aggregate metrics as
of the last refresh.  The C implementation is not in the repository. -/
def get_cpu_metrics (st : MonitorState) : CCpuMetrics :=
  ⟨totalUsage st, coreCount st, st.current.cpu.loadAvg1,
    st.current.cpu.loadAvg5, st.current.cpu.loadAvg15,
    st.current.cpu.frequencyMhz⟩

/-- Well-formedness of one raw sample, as the spec describes the Raw
Sampler's output: pids unique among currently running processes, a positive
constant core count, non-negative load averages. -/
def WfSample (s : Sample) : Prop :=
  (s.procs.map RawProc.pid).Nodup
    ∧ 0 < s.cpu.coreTotal.length
    ∧ 0 ≤ s.cpu.loadAvg1 ∧ 0 ≤ s.cpu.loadAvg5 ∧ 0 ≤ s.cpu.loadAvg15

/-- Well-formedness of a consecutive sample pair: cumulative counters are
monotone, busy never outruns total, and no process accrues more busy ticks
over the window than core count times the elapsed wall time. -/
def WfStep (pr cur : Sample) : Prop :=
  pr.cpu.coreBusy.sum ≤ cur.cpu.coreBusy.sum
    ∧ pr.cpu.coreTotal.sum ≤ cur.cpu.coreTotal.sum
    ∧ cur.cpu.coreBusy.sum - pr.cpu.coreBusy.sum
        ≤ cur.cpu.coreTotal.sum - pr.cpu.coreTotal.sum
    ∧ ∀ p ∈ cur.procs, ∀ q ∈ (findPrev pr.procs p.pid).toList,
        p.busyTicks ≤ q.busyTicks
          + cur.cpu.coreTotal.length * (cur.timestamp - pr.timestamp)

/-- Well-formedness of a Sample Store state: the current sample is
well-formed and, when a previous sample exists, the pair is a well-formed
step. -/
def WfState (st : MonitorState) : Prop :=
  WfSample st.current ∧ ∀ pr ∈ st.previous.toList, WfStep pr st.current

instance (s : Sample) : Decidable (WfSample s) := by
  unfold WfSample; infer_instance

instance (pr cur : Sample) : Decidable (WfStep pr cur) := by
  unfold WfStep; infer_instance

instance (st : MonitorState) : Decidable (WfState st) := by
  unfold WfState; infer_instance

/-- All samples taken on a host with `n` cores report `n` cores. -/
def ConstCores (n : Nat) (s₀ : Sample) (rs : List (Option Sample)) : Prop :=
  s₀.cpu.coreTotal.length = n
    ∧ ∀ r ∈ rs, ∀ s ∈ r.toList, s.cpu.coreTotal.length = n

instance (n : Nat) (s₀ : Sample) (rs : List (Option Sample)) :
    Decidable (ConstCores n s₀ rs) := by
  unfold ConstCores; infer_instance

/-! ## The Snapshot Allocator / Ownership Protocol

Modelled from the spec: the heap the boundary snapshots live on is
abstracted as the set of live allocation ids together with a fresh-id
counter.  Each `get` call allocates one block per nested allocation (the
snapshot struct, the record array, and each record's name and status
string); releasing a handle frees each of its blocks exactly once and fails
on a block that is not live (a double free).  The C implementation is not in
the repository. -/

/-- The allocator's state: the ids of the live heap blocks and the next
fresh id. -/
structure Heap where
  nextId : Nat
  live : List Nat
deriving DecidableEq

/-- A well-formed heap: live ids are distinct and below the fresh-id
counter. -/
def Heap.Wf (h : Heap) : Prop :=
  h.live.Nodup ∧ ∀ i ∈ h.live, i < h.nextId

instance (h : Heap) : Decidable h.Wf := by
  unfold Heap.Wf; infer_instance

/-- Allocate `k` fresh blocks, returning their ids and the new heap. -/
def allocBlocks (h : Heap) (k : Nat) : List Nat × Heap :=
  ((List.range k).map (fun j => h.nextId + j),
   ⟨h.nextId + k, (List.range k).map (fun j => h.nextId + j) ++ h.live⟩)

/-- Free one block: fails when the block is not live (double free or foreign
id). -/
def freeBlock (h : Heap) (i : Nat) : Option Heap :=
  if i ∈ h.live then some ⟨h.nextId, h.live.erase i⟩ else none

/-- Free a list of blocks one by one, failing as soon as one is not live. -/
def freeBlocks (h : Heap) (ids : List Nat) : Option Heap :=
  match ids with
  | [] => some h
  | i :: rest =>
      match freeBlock h i with
      | none => none
      | some hh => freeBlocks hh rest

/-- A caller-owned process-list handle: the snapshot value together with the
heap blocks the handle transitively owns. -/
structure PLHandle where
  value : CProcessList
  blocks : List Nat
deriving DecidableEq

/-- A caller-owned CPU-metrics handle. -/
structure CMHandle where
  value : CCpuMetrics
  blocks : List Nat
deriving DecidableEq

/-- Modelled from the spec: materialise a process snapshot on the heap as
one handle owning the snapshot struct, the record array, and each record's
name and status string (2 + 2×count nested allocations).  The C
implementation is not in the repository. -/
def allocSnapshot (v : CProcessList) (h : Heap) : PLHandle × Heap :=
  (⟨v, (allocBlocks h (2 + 2 * v.count)).1⟩, (allocBlocks h (2 + 2 * v.count)).2)

/-- Modelled from the spec: materialise a CPU-metrics snapshot on the heap
as one handle owning the metrics struct.  The C implementation is not in the
repository. -/
def allocCpuMetrics (st : MonitorState) (h : Heap) : CMHandle × Heap :=
  (⟨get_cpu_metrics st, (allocBlocks h 1).1⟩, (allocBlocks h 1).2)

/-- Modelled from the spec: `free_process_list` recursively frees every
nested allocation the handle owns, exactly once each.  The C implementation
is not in the repository. -/
def free_process_list (hdl : PLHandle) (h : Heap) : Option Heap :=
  freeBlocks h hdl.blocks

/-- Modelled from the spec: `free_cpu_metrics` frees the metrics handle's
allocation.  The C implementation is not in the repository. -/
def free_cpu_metrics (hdl : CMHandle) (h : Heap) : Option Heap :=
  freeBlocks h hdl.blocks

/-! ## The boundary header as data

The one source file of the repository,
src/ReaperApp/Sources/CHeaders/cpu_monitor_core.h, declares the boundary
API.  Its function declarations are embedded verbatim below. -/

/-- The C types appearing in the header's function signatures. -/
inductive CType where
  | void
  | ptr_CProcessList
  | ptr_CCpuMetrics
  | ptr_char
  | float32
deriving DecidableEq

/-- A C function declaration: name, return type, argument types. -/
structure CFunDecl where
  name : String
  ret : CType
  args : List CType
deriving DecidableEq

/-- The eight function declarations of cpu_monitor_core.h, in order. -/
def cpuMonitorCoreHeader : List CFunDecl :=
  [⟨"monitor_init", CType.void, []⟩,
   ⟨"monitor_refresh", CType.void, []⟩,
   ⟨"get_all_processes", CType.ptr_CProcessList, []⟩,
   ⟨"get_high_cpu_processes", CType.ptr_CProcessList, [CType.float32]⟩,
   ⟨"get_cpu_metrics", CType.ptr_CCpuMetrics, []⟩,
   ⟨"free_process_list", CType.void, [CType.ptr_CProcessList]⟩,
   ⟨"free_cpu_metrics", CType.void, [CType.ptr_CCpuMetrics]⟩,
   ⟨"free_string", CType.void, [CType.ptr_char]⟩]

/-! ## Concrete samples used by the witnesses -/

/-- A concrete one-core baseline sample with one process. -/
def sampleA : Sample :=
  ⟨[⟨1, "sh", 0, 4, "running", 0, 1, 0⟩], ⟨[0], [0], 0, 0, 0, 2400⟩, 0⟩

/-- A concrete one-core follow-up sample: process 1 accrued 5 busy ticks,
process 2 is newly started, the window is 10 time units wide. -/
def sampleB : Sample :=
  ⟨[⟨1, "sh", 5, 4, "running", 0, 1, 0⟩, ⟨2, "cat", 0, 1, "running", 1, 1, 9⟩],
   ⟨[8], [10], 1, 1, 1, 2400⟩, 10⟩

/-- A concrete eight-core baseline sample. -/
def sample8A : Sample :=
  ⟨[⟨1, "sh", 0, 4, "running", 0, 1, 0⟩],
   ⟨[0, 0, 0, 0, 0, 0, 0, 0], [0, 0, 0, 0, 0, 0, 0, 0], 0, 0, 0, 2400⟩, 0⟩

/-- A concrete eight-core follow-up sample. -/
def sample8B : Sample :=
  ⟨[⟨1, "sh", 5, 4, "running", 0, 1, 0⟩],
   ⟨[3, 1, 0, 0, 0, 0, 0, 0], [10, 10, 10, 10, 10, 10, 10, 10], 1, 1, 1, 2400⟩,
   10⟩

/-! ## Lemmas about the snapshot functions -/

lemma procUsage_nonneg (prev : List RawProc) (e : Nat) (p : RawProc) :
    0 ≤ procUsage prev e p := by
  unfold procUsage
  cases findPrev prev p.pid with
  | none => simp
  | some q => exact le_max_left 0 _

lemma mem_get_all (st : MonitorState) (r : CProcessInfo) :
    r ∈ (get_all_processes st).processes ↔
      ∃ p ∈ st.current.procs,
        r = mkRecord (prevProcs st) (elapsedTime st) st.current.timestamp p := by
  simp only [get_all_processes, List.mem_map]
  constructor
  · rintro ⟨p, hp, hr⟩; exact ⟨p, hp, hr.symm⟩
  · rintro ⟨p, hp, hr⟩; exact ⟨p, hp, hr.symm⟩

lemma get_all_nonneg (st : MonitorState) :
    ∀ r ∈ (get_all_processes st).processes, 0 ≤ r.cpu_usage := by
  intro r hr
  obtain ⟨p, _, hr⟩ := (mem_get_all st r).mp hr
  subst hr
  exact procUsage_nonneg _ _ _

lemma procUsage_le (st : MonitorState) (hwf : WfState st) (p : RawProc)
    (hp : p ∈ st.current.procs) :
    procUsage (prevProcs st) (elapsedTime st) p ≤ 100 * (coreCount st : ℚ) := by
  have hcc : (0 : ℚ) ≤ 100 * (coreCount st : ℚ) := by positivity
  cases hprev : st.previous with
  | none =>
      unfold procUsage
      have : prevProcs st = [] := by simp [prevProcs, hprev]
      rw [this]
      simp [findPrev, hcc]
  | some pr =>
      have hstep : WfStep pr st.current := by
        refine hwf.2 pr ?_
        simp [hprev]
      unfold procUsage
      cases hfind : findPrev (prevProcs st) p.pid with
      | none => simp [hcc]
      | some q =>
          have hq : p.busyTicks ≤ q.busyTicks
              + st.current.cpu.coreTotal.length * (st.current.timestamp - pr.timestamp) := by
            refine hstep.2.2.2 p hp q ?_
            have : prevProcs st = pr.procs := by simp [prevProcs, hprev]
            rw [this] at hfind
            simp [hfind]
          have helapsed : elapsedTime st = st.current.timestamp - pr.timestamp := by
            simp [elapsedTime, hprev]
          set e : Nat := st.current.timestamp - pr.timestamp with he
      -- goal: max 0 ((pb - qb) / elapsed * 100) ≤ 100 * cores
          rw [helapsed]
          rcases Nat.eq_zero_or_pos e with he0 | hepos
          · rw [he0]
            simp [hcc]
          · apply max_le hcc
            have heq : (0 : ℚ) < (e : ℚ) := by exact_mod_cast hepos
            rw [div_mul_eq_mul_div, div_le_iff₀ heq]
            have hcast : (p.busyTicks : ℚ) ≤ (q.busyTicks : ℚ)
                + (st.current.cpu.coreTotal.length : ℚ) * (e : ℚ) := by
              exact_mod_cast hq
            have : (coreCount st : ℚ) = (st.current.cpu.coreTotal.length : ℚ) := by
              simp [coreCount]
            rw [this]
            nlinarith

lemma get_all_le (st : MonitorState) (hwf : WfState st) :
    ∀ r ∈ (get_all_processes st).processes,
      r.cpu_usage ≤ 100 * (coreCount st : ℚ) := by
  intro r hr
  obtain ⟨p, hp, hr⟩ := (mem_get_all st r).mp hr
  subst hr
  exact procUsage_le st hwf p hp

lemma get_all_pids (st : MonitorState) :
    (get_all_processes st).processes.map CProcessInfo.pid
      = st.current.procs.map RawProc.pid := by
  simp only [get_all_processes, List.map_map]
  rfl

lemma high_cpu_processes_eq (st : MonitorState) (t : ℚ) :
    (get_high_cpu_processes st t).processes
      = (get_all_processes st).processes.filter (fun r => t < r.cpu_usage) := rfl

lemma totalUsage_nonneg (st : MonitorState) (hwf : WfState st) :
    0 ≤ totalUsage st := by
  unfold totalUsage
  cases hprev : st.previous with
  | none => simp
  | some pr =>
      have hstep : WfStep pr st.current := hwf.2 pr (by simp [hprev])
      have hb : (pr.cpu.coreBusy.sum : ℚ) ≤ (st.current.cpu.coreBusy.sum : ℚ) := by
        exact_mod_cast hstep.1
      have ht : (pr.cpu.coreTotal.sum : ℚ) ≤ (st.current.cpu.coreTotal.sum : ℚ) := by
        exact_mod_cast hstep.2.1
      have := div_nonneg (sub_nonneg.mpr hb) (sub_nonneg.mpr ht)
      nlinarith

lemma totalUsage_le (st : MonitorState) (hwf : WfState st) :
    totalUsage st ≤ 100 * (coreCount st : ℚ) := by
  have hcpos : (1 : ℚ) ≤ (coreCount st : ℚ) := by
    have : 0 < coreCount st := hwf.1.2.1
    exact_mod_cast this
  have h100 : (100 : ℚ) ≤ 100 * (coreCount st : ℚ) := by nlinarith
  unfold totalUsage
  cases hprev : st.previous with
  | none => linarith
  | some pr =>
      dsimp only
      have hstep : WfStep pr st.current := hwf.2 pr (by simp [hprev])
      have hb : pr.cpu.coreBusy.sum ≤ st.current.cpu.coreBusy.sum := hstep.1
      have ht : pr.cpu.coreTotal.sum ≤ st.current.cpu.coreTotal.sum := hstep.2.1
      have hbt : st.current.cpu.coreBusy.sum - pr.cpu.coreBusy.sum
          ≤ st.current.cpu.coreTotal.sum - pr.cpu.coreTotal.sum := hstep.2.2.1
      have hbq : (st.current.cpu.coreBusy.sum : ℚ) - (pr.cpu.coreBusy.sum : ℚ)
          ≤ (st.current.cpu.coreTotal.sum : ℚ) - (pr.cpu.coreTotal.sum : ℚ) := by
        rw [← Nat.cast_sub hb, ← Nat.cast_sub ht]
        exact_mod_cast hbt
      have hbnn : (0 : ℚ) ≤ (st.current.cpu.coreBusy.sum : ℚ) - (pr.cpu.coreBusy.sum : ℚ) := by
        have hbc : (pr.cpu.coreBusy.sum : ℚ) ≤ (st.current.cpu.coreBusy.sum : ℚ) := by
          exact_mod_cast hb
        linarith
      set bd : ℚ := (st.current.cpu.coreBusy.sum : ℚ) - (pr.cpu.coreBusy.sum : ℚ) with hbd
      set td : ℚ := (st.current.cpu.coreTotal.sum : ℚ) - (pr.cpu.coreTotal.sum : ℚ) with htd
      rcases eq_or_lt_of_le (le_trans hbnn hbq) with htd0 | htdpos
      · rw [← htd0]
        simp only [div_zero, zero_mul]
        linarith
      · have hratio : bd / td ≤ 1 := (div_le_one htdpos).mpr hbq
        nlinarith

lemma run_current_cores (n : Nat) (st : MonitorState) (rs : List (Option Sample))
    (h0 : st.current.cpu.coreTotal.length = n)
    (hrs : ∀ r ∈ rs, ∀ s ∈ r.toList, s.cpu.coreTotal.length = n) :
    (rs.foldl monitor_refresh st).current.cpu.coreTotal.length = n := by
  induction rs generalizing st with
  | nil => simpa using h0
  | cons r rest ih =>
      simp only [List.foldl_cons]
      apply ih
      · cases r with
        | none => simpa [monitor_refresh] using h0
        | some s =>
            have := hrs (some s) (by simp) s (by simp)
            simpa [monitor_refresh] using this
      · intro r hr s hs
        exact hrs r (by simp [hr]) s hs

lemma constCores_coreCount (n : Nat) (s₀ : Sample) (rs : List (Option Sample))
    (h : ConstCores n s₀ rs) : coreCount (monitor_run s₀ rs) = n := by
  unfold coreCount monitor_run
  exact run_current_cores n (monitor_init s₀) rs h.1 h.2

/-! ## Lemmas about the allocator -/

lemma allocBlocks_mem (h : Heap) (k b : Nat) :
    b ∈ (allocBlocks h k).1 ↔ h.nextId ≤ b ∧ b < h.nextId + k := by
  simp only [allocBlocks, List.mem_map, List.mem_range]
  constructor
  · rintro ⟨j, hj, rfl⟩
    omega
  · rintro ⟨h1, h2⟩
    exact ⟨b - h.nextId, by omega, by omega⟩

lemma allocBlocks_nodup (h : Heap) (k : Nat) : (allocBlocks h k).1.Nodup := by
  refine List.Nodup.map ?_ (List.nodup_range k)
  intro a b hab
  have hab2 : h.nextId + a = h.nextId + b := hab
  omega

lemma allocBlocks_length (h : Heap) (k : Nat) : (allocBlocks h k).1.length = k := by
  simp [allocBlocks]

lemma allocBlocks_live (h : Heap) (k : Nat) :
    (allocBlocks h k).2.live = (allocBlocks h k).1 ++ h.live := rfl

lemma allocBlocks_nextId (h : Heap) (k : Nat) :
    (allocBlocks h k).2.nextId = h.nextId + k := rfl

lemma allocBlocks_fresh (h : Heap) (hwf : h.Wf) (k : Nat) :
    ∀ b ∈ (allocBlocks h k).1, b ∉ h.live := by
  intro b hb hlive
  have hlt := hwf.2 b hlive
  have := (allocBlocks_mem h k b).mp hb
  omega

lemma allocBlocks_wf (h : Heap) (hwf : h.Wf) (k : Nat) : (allocBlocks h k).2.Wf := by
  constructor
  · rw [allocBlocks_live]
    refine List.Nodup.append (allocBlocks_nodup h k) hwf.1 ?_
    intro b hb hlive
    exact allocBlocks_fresh h hwf k b hb hlive
  · intro i hi
    rw [allocBlocks_live] at hi
    rw [allocBlocks_nextId]
    rcases List.mem_append.mp hi with hnew | hold
    · exact ((allocBlocks_mem h k i).mp hnew).2
    · have := hwf.2 i hold
      omega

lemma freeBlocks_sound (ids : List Nat) (h : Heap)
    (hnd : ids.Nodup) (hsub : ∀ i ∈ ids, i ∈ h.live) (hl : h.live.Nodup) :
    ∃ hh, freeBlocks h ids = some hh ∧ hh.nextId = h.nextId ∧ hh.live.Nodup
      ∧ ∀ j, j ∈ hh.live ↔ j ∈ h.live ∧ j ∉ ids := by
  induction ids generalizing h with
  | nil => exact ⟨h, rfl, rfl, hl, by simp⟩
  | cons i rest ih =>
      have hi : i ∈ h.live := hsub i (by simp)
      have hini : i ∉ rest := (List.nodup_cons.mp hnd).1
      have hnd2 : rest.Nodup := (List.nodup_cons.mp hnd).2
      have hl2 : (h.live.erase i).Nodup := hl.erase i
      have hsub2 : ∀ j ∈ rest, j ∈ h.live.erase i := by
        intro j hj
        have hji : j ≠ i := by
          intro e
          exact hini (e ▸ hj)
        exact (hl.mem_erase_iff).mpr ⟨hji, hsub j (by simp [hj])⟩
      obtain ⟨hh, he, hn, hhnd, hmem⟩ := ih ⟨h.nextId, h.live.erase i⟩ hnd2 hsub2 hl2
      refine ⟨hh, ?_, hn, hhnd, ?_⟩
      · simp only [freeBlocks, freeBlock, hi, if_pos]
        exact he
      · intro j
        rw [hmem j]
        simp only [List.mem_cons]
        constructor
        · rintro ⟨hje, hjr⟩
          have := (hl.mem_erase_iff).mp hje
          exact ⟨this.2, by
            rintro (rfl | hjrest)
            · exact this.1 rfl
            · exact hjr hjrest⟩
        · rintro ⟨hjl, hjn⟩
          have hji : j ≠ i := by
            intro e
            exact hjn (Or.inl e)
          exact ⟨(hl.mem_erase_iff).mpr ⟨hji, hjl⟩, fun hjr => hjn (Or.inr hjr)⟩

/-- Two successive allocations hand out disjoint fresh blocks that can be
released in either order, restoring the original live set. -/
lemma double_alloc_free (h : Heap) (hwf : h.Wf) (k1 k2 : Nat) :
    (∀ b ∈ (allocBlocks h k1).1, b ∉ (allocBlocks (allocBlocks h k1).2 k2).1)
    ∧ (∀ b ∈ (allocBlocks h k1).1, b ∉ h.live)
    ∧ (∀ b ∈ (allocBlocks (allocBlocks h k1).2 k2).1, b ∉ h.live)
    ∧ (∃ hA hB,
        freeBlocks (allocBlocks (allocBlocks h k1).2 k2).2 (allocBlocks h k1).1 = some hA
        ∧ freeBlocks hA (allocBlocks (allocBlocks h k1).2 k2).1 = some hB
        ∧ ∀ j, j ∈ hB.live ↔ j ∈ h.live)
    ∧ (∃ hA hB,
        freeBlocks (allocBlocks (allocBlocks h k1).2 k2).2
            (allocBlocks (allocBlocks h k1).2 k2).1 = some hA
        ∧ freeBlocks hA (allocBlocks h k1).1 = some hB
        ∧ ∀ j, j ∈ hB.live ↔ j ∈ h.live) := by
  set h1 : Heap := (allocBlocks h k1).2 with hh1
  set bs1 : List Nat := (allocBlocks h k1).1 with hbs1
  set h2 : Heap := (allocBlocks h1 k2).2 with hh2
  set bs2 : List Nat := (allocBlocks h1 k2).1 with hbs2
  have hwf1 : h1.Wf := allocBlocks_wf h hwf k1
  have hwf2 : h2.Wf := allocBlocks_wf h1 hwf1 k2
  have hdisj : ∀ b ∈ bs1, b ∉ bs2 := by
    intro b hb hb2
    have e1 := (allocBlocks_mem h k1 b).mp hb
    have e2 := (allocBlocks_mem h1 k2 b).mp hb2
    rw [hh1, allocBlocks_nextId] at e2
    omega
  have hfresh1 : ∀ b ∈ bs1, b ∉ h.live := allocBlocks_fresh h hwf k1
  have hfresh2 : ∀ b ∈ bs2, b ∉ h.live := by
    intro b hb hlive
    have e2 := (allocBlocks_mem h1 k2 b).mp hb
    rw [hh1, allocBlocks_nextId] at e2
    have := hwf.2 b hlive
    omega
  have hlive2 : h2.live = bs2 ++ (bs1 ++ h.live) := by
    rw [hh2, allocBlocks_live, hh1, allocBlocks_live]
  have hsub1 : ∀ b ∈ bs1, b ∈ h2.live := by
    intro b hb
    rw [hlive2]
    simp [hb]
  have hsub2 : ∀ b ∈ bs2, b ∈ h2.live := by
    intro b hb
    rw [hlive2]
    simp [hb]
  have hnd1 : bs1.Nodup := allocBlocks_nodup h k1
  have hnd2 : bs2.Nodup := allocBlocks_nodup h1 k2
  have horig : ∀ j ∈ h.live, j ∉ bs1 ∧ j ∉ bs2 := by
    intro j hj
    exact ⟨fun hb => hfresh1 j hb hj, fun hb => hfresh2 j hb hj⟩
  refine ⟨hdisj, hfresh1, hfresh2, ?_, ?_⟩
  · obtain ⟨hA, heA, hnA, hndA, hmemA⟩ := freeBlocks_sound bs1 h2 hnd1 hsub1 hwf2.1
    have hsub2A : ∀ b ∈ bs2, b ∈ hA.live := by
      intro b hb
      exact (hmemA b).mpr ⟨hsub2 b hb, fun hb1 => hdisj b hb1 hb⟩
    obtain ⟨hB, heB, hnB, hndB, hmemB⟩ := freeBlocks_sound bs2 hA hnd2 hsub2A hndA
    refine ⟨hA, hB, heA, heB, ?_⟩
    intro j
    rw [hmemB j, hmemA j, hlive2]
    simp only [List.mem_append]
    constructor
    · rintro ⟨⟨hmem, hnb1⟩, hnb2⟩
      rcases hmem with h2m | h1m | hlm
      · exact absurd h2m hnb2
      · exact absurd h1m hnb1
      · exact hlm
    · intro hj
      have := horig j hj
      exact ⟨⟨Or.inr (Or.inr hj), this.1⟩, this.2⟩
  · obtain ⟨hA, heA, hnA, hndA, hmemA⟩ := freeBlocks_sound bs2 h2 hnd2 hsub2 hwf2.1
    have hsub1A : ∀ b ∈ bs1, b ∈ hA.live := by
      intro b hb
      exact (hmemA b).mpr ⟨hsub1 b hb, fun hb2 => hdisj b hb hb2⟩
    obtain ⟨hB, heB, hnB, hndB, hmemB⟩ := freeBlocks_sound bs1 hA hnd1 hsub1A hndA
    refine ⟨hA, hB, heA, heB, ?_⟩
    intro j
    rw [hmemB j, hmemA j, hlive2]
    simp only [List.mem_append]
    constructor
    · rintro ⟨⟨hmem, hnb2⟩, hnb1⟩
      rcases hmem with h2m | h1m | hlm
      · exact absurd h2m hnb2
      · exact absurd h1m hnb1
      · exact hlm
    · intro hj
      have := horig j hj
      exact ⟨⟨Or.inr (Or.inr hj), this.2⟩, this.1⟩

/-- Allocating `k` blocks and freeing exactly those blocks succeeds and
restores the live set of the original heap. -/
lemma alloc_free_roundtrip (h : Heap) (hwf : h.Wf) (k : Nat) :
    ∃ hh, freeBlocks (allocBlocks h k).2 (allocBlocks h k).1 = some hh
      ∧ ∀ j, j ∈ hh.live ↔ j ∈ h.live := by
  obtain ⟨hh, he, hn, hnd, hmem⟩ :=
    freeBlocks_sound (allocBlocks h k).1 (allocBlocks h k).2
      (allocBlocks_nodup h k)
      (fun b hb => by rw [allocBlocks_live]; exact List.mem_append.mpr (Or.inl hb))
      (allocBlocks_wf h hwf k).1
  refine ⟨hh, he, fun j => ?_⟩
  rw [hmem j, allocBlocks_live]
  simp only [List.mem_append]
  constructor
  · rintro ⟨hj1 | hj2, hnb⟩
    · exact absurd hj1 hnb
    · exact hj2
  · intro hj
    exact ⟨Or.inr hj, fun hb => allocBlocks_fresh h hwf k j hb hj⟩

/-! ## The claims -/

/-- Claim C1: in every state reachable after init and any sequence of
refresh calls, `get_high_cpu_processes t` is a subsequence of
`get_all_processes` (same records, base-snapshot order preserved) whose
elements are exactly the records with `cpu_usage > t`; a negative threshold
(in particular −1) yields all records and a threshold exceeding
100×core_count yields none. -/
theorem C1_high_cpu_filter (s₀ : Sample) (rs : List (Option Sample)) (t : ℚ)
    (hwf : WfState (monitor_run s₀ rs)) :
    List.Sublist (get_high_cpu_processes (monitor_run s₀ rs) t).processes
        (get_all_processes (monitor_run s₀ rs)).processes
    ∧ (∀ r, r ∈ (get_high_cpu_processes (monitor_run s₀ rs) t).processes ↔
        r ∈ (get_all_processes (monitor_run s₀ rs)).processes ∧ t < r.cpu_usage)
    ∧ (get_high_cpu_processes (monitor_run s₀ rs) (-1)).processes
        = (get_all_processes (monitor_run s₀ rs)).processes
    ∧ (t < 0 → (get_high_cpu_processes (monitor_run s₀ rs) t).processes
        = (get_all_processes (monitor_run s₀ rs)).processes)
    ∧ (100 * (coreCount (monitor_run s₀ rs) : ℚ) < t →
        (get_high_cpu_processes (monitor_run s₀ rs) t).processes = []) := by
  set st := monitor_run s₀ rs with hst
  have hneg : ∀ u : ℚ, u < 0 →
      (get_high_cpu_processes st u).processes = (get_all_processes st).processes := by
    intro u hu
    rw [high_cpu_processes_eq]
    apply List.filter_eq_self.mpr
    intro r hr
    have := get_all_nonneg st r hr
    simp only [decide_eq_true_eq]
    linarith
  refine ⟨?_, ?_, hneg (-1) (by norm_num), hneg t, ?_⟩
  · rw [high_cpu_processes_eq]
    exact List.filter_sublist _
  · intro r
    rw [high_cpu_processes_eq]
    simp [List.mem_filter]
  · intro ht
    rw [high_cpu_processes_eq]
    apply List.filter_eq_nil_iff.mpr
    intro r hr
    have := get_all_le st hwf r hr
    simp only [decide_eq_true_eq]
    exact not_lt.mpr (by linarith)

/-- Claim C1, checked at a concrete reachable state. -/
theorem C1_high_cpu_filter_check :
    WfState (monitor_run sampleA [some sampleB])
    ∧ (get_high_cpu_processes (monitor_run sampleA [some sampleB]) (-1)).processes
        = (get_all_processes (monitor_run sampleA [some sampleB])).processes :=
  ⟨by decide,
   (C1_high_cpu_filter sampleA [some sampleB] 2 (by decide)).2.2.1⟩

/-- Claim C3: in every reachable state, every record of the snapshot has
`cpu_usage` in the closed interval [0, 100×core_count], and for a process
present in both samples the usage is the busy-tick delta divided by the
elapsed wall time times 100, clamped to be never negative. -/
theorem C3_usage_bounded (s₀ : Sample) (rs : List (Option Sample))
    (hwf : WfState (monitor_run s₀ rs)) :
    (∀ r ∈ (get_all_processes (monitor_run s₀ rs)).processes,
        0 ≤ r.cpu_usage
          ∧ r.cpu_usage ≤ 100 * (coreCount (monitor_run s₀ rs) : ℚ))
    ∧ ∀ p ∈ (monitor_run s₀ rs).current.procs,
        ∀ q ∈ (findPrev (prevProcs (monitor_run s₀ rs)) p.pid).toList,
          procUsage (prevProcs (monitor_run s₀ rs)) (elapsedTime (monitor_run s₀ rs)) p
            = max 0 (((p.busyTicks : ℚ) - (q.busyTicks : ℚ))
                / ((elapsedTime (monitor_run s₀ rs)) : ℚ) * 100) := by
  set st := monitor_run s₀ rs with hst
  refine ⟨fun r hr => ⟨get_all_nonneg st r hr, get_all_le st hwf r hr⟩, ?_⟩
  intro p hp q hq
  have hfind : findPrev (prevProcs st) p.pid = some q := by
    simpa using hq
  unfold procUsage
  rw [hfind]

/-- Claim C3, checked at a concrete reachable state. -/
theorem C3_usage_bounded_check :
    WfState (monitor_run sampleA [some sampleB])
    ∧ ∀ r ∈ (get_all_processes (monitor_run sampleA [some sampleB])).processes,
        0 ≤ r.cpu_usage
          ∧ r.cpu_usage ≤ 100 * (coreCount (monitor_run sampleA [some sampleB]) : ℚ) :=
  ⟨by decide, (C3_usage_bounded sampleA [some sampleB] (by decide)).1⟩

/-- Claim C4: a process that appears only in the current sample is included
in the snapshot rather than omitted, with `cpu_usage = 0`; its `run_time` is
the time since its start, and is at most one refresh interval when the
process started after the previous sample was taken. -/
theorem C4_first_seen (s₀ : Sample) (rs : List (Option Sample)) (p : RawProc)
    (hp : p ∈ (monitor_run s₀ rs).current.procs)
    (hnew : findPrev (prevProcs (monitor_run s₀ rs)) p.pid = none) :
    ∃ r ∈ (get_all_processes (monitor_run s₀ rs)).processes,
      r.pid = p.pid ∧ r.cpu_usage = 0
      ∧ r.run_time = (monitor_run s₀ rs).current.timestamp - p.startTime
      ∧ ∀ pr ∈ (monitor_run s₀ rs).previous.toList,
          pr.timestamp ≤ p.startTime →
            r.run_time ≤ elapsedTime (monitor_run s₀ rs) := by
  set st := monitor_run s₀ rs with hst
  refine ⟨mkRecord (prevProcs st) (elapsedTime st) st.current.timestamp p,
    (mem_get_all st _).mpr ⟨p, hp, rfl⟩, rfl, ?_, rfl, ?_⟩
  · show procUsage (prevProcs st) (elapsedTime st) p = 0
    unfold procUsage
    rw [hnew]
  · intro pr hpr hts
    have hprev : st.previous = some pr := by simpa using hpr
    show st.current.timestamp - p.startTime ≤ elapsedTime st
    have hel : elapsedTime st = st.current.timestamp - pr.timestamp := by
      simp [elapsedTime, hprev]
    rw [hel]
    exact Nat.sub_le_sub_left hts _

/-- Claim C4, checked at a concrete reachable state on the newly started
process. -/
theorem C4_first_seen_check :
    (⟨2, "cat", 0, 1, "running", 1, 1, 9⟩ : RawProc)
        ∈ (monitor_run sampleA [some sampleB]).current.procs
    ∧ ∃ r ∈ (get_all_processes (monitor_run sampleA [some sampleB])).processes,
        r.pid = (⟨2, "cat", 0, 1, "running", 1, 1, 9⟩ : RawProc).pid
        ∧ r.cpu_usage = 0
        ∧ r.run_time = (monitor_run sampleA [some sampleB]).current.timestamp
            - (⟨2, "cat", 0, 1, "running", 1, 1, 9⟩ : RawProc).startTime
        ∧ ∀ pr ∈ (monitor_run sampleA [some sampleB]).previous.toList,
            pr.timestamp ≤ (⟨2, "cat", 0, 1, "running", 1, 1, 9⟩ : RawProc).startTime →
              r.run_time ≤ elapsedTime (monitor_run sampleA [some sampleB]) :=
  ⟨by decide,
   C4_first_seen sampleA [some sampleB] ⟨2, "cat", 0, 1, "running", 1, 1, 9⟩
     (by decide) (by decide)⟩

/-- Claim C5: a pid absent from the current sample never appears in the
`get_all_processes` result of any reachable state: stale entries for exited
processes are dropped entirely. -/
theorem C5_exited_dropped (s₀ : Sample) (rs : List (Option Sample)) (x : Nat)
    (habs : ∀ p ∈ (monitor_run s₀ rs).current.procs, p.pid ≠ x) :
    ∀ r ∈ (get_all_processes (monitor_run s₀ rs)).processes, r.pid ≠ x := by
  intro r hr
  obtain ⟨p, hp, rfl⟩ := (mem_get_all _ r).mp hr
  exact habs p hp

/-- Claim C5, checked at a concrete reachable state for a pid that has
exited (pid 7 is absent from the current sample). -/
theorem C5_exited_dropped_check :
    (∀ p ∈ (monitor_run sampleA [some sampleB]).current.procs, p.pid ≠ 7)
    ∧ ∀ r ∈ (get_all_processes (monitor_run sampleA [some sampleB])).processes,
        r.pid ≠ 7 :=
  ⟨by decide, C5_exited_dropped sampleA [some sampleB] 7 (by decide)⟩

/-- Claim C6: a refresh that fails with a SamplingError leaves the Sample
Store unchanged: the previous snapshot remains the last-good state and every
subsequent get returns the pre-failure contents unchanged. -/
theorem C6_failed_refresh_frame (st : MonitorState) (s₀ : Sample)
    (rs : List (Option Sample)) :
    monitor_refresh st none = st
    ∧ get_all_processes (monitor_refresh st none) = get_all_processes st
    ∧ get_cpu_metrics (monitor_refresh st none) = get_cpu_metrics st
    ∧ monitor_run s₀ (rs ++ [none]) = monitor_run s₀ rs := by
  refine ⟨rfl, rfl, rfl, ?_⟩
  unfold monitor_run
  rw [List.foldl_append]
  rfl

/-- Claim C8: every snapshot produced by `get_all_processes` or
`get_high_cpu_processes` has `count` equal to the length of its record
sequence, and the pids of its records are pairwise distinct. -/
theorem C8_snapshot_invariant (s₀ : Sample) (rs : List (Option Sample)) (t : ℚ)
    (hwf : WfState (monitor_run s₀ rs)) :
    (get_all_processes (monitor_run s₀ rs)).count
        = (get_all_processes (monitor_run s₀ rs)).processes.length
    ∧ ((get_all_processes (monitor_run s₀ rs)).processes.map CProcessInfo.pid).Nodup
    ∧ (get_high_cpu_processes (monitor_run s₀ rs) t).count
        = (get_high_cpu_processes (monitor_run s₀ rs) t).processes.length
    ∧ ((get_high_cpu_processes (monitor_run s₀ rs) t).processes.map
        CProcessInfo.pid).Nodup := by
  set st := monitor_run s₀ rs with hst
  have hnd : ((get_all_processes st).processes.map CProcessInfo.pid).Nodup := by
    rw [get_all_pids]
    exact hwf.1.1
  have hsub : List.Sublist (get_high_cpu_processes st t).processes
      (get_all_processes st).processes := by
    rw [high_cpu_processes_eq]
    exact List.filter_sublist _
  exact ⟨rfl, hnd, rfl, hnd.sublist (hsub.map CProcessInfo.pid)⟩

/-- Claim C8, checked at a concrete reachable state. -/
theorem C8_snapshot_invariant_check :
    WfState (monitor_run sampleA [some sampleB])
    ∧ ((get_all_processes (monitor_run sampleA [some sampleB])).processes.map
        CProcessInfo.pid).Nodup :=
  ⟨by decide, (C8_snapshot_invariant sampleA [some sampleB] 2 (by decide)).2.1⟩

/-- Claim C9: every CpuSnapshot has `total_usage` in [0, 100×core_count], a
positive `core_count` equal to the host's constant core count, and
non-negative load averages (`frequency_mhz` is an unsigned integer by
construction). -/
theorem C9_cpu_metrics_range (s₀ : Sample) (rs : List (Option Sample)) (n : Nat)
    (hwf : WfState (monitor_run s₀ rs)) (hconst : ConstCores n s₀ rs) :
    0 ≤ (get_cpu_metrics (monitor_run s₀ rs)).total_usage
    ∧ (get_cpu_metrics (monitor_run s₀ rs)).total_usage
        ≤ 100 * ((get_cpu_metrics (monitor_run s₀ rs)).core_count : ℚ)
    ∧ 0 < (get_cpu_metrics (monitor_run s₀ rs)).core_count
    ∧ (get_cpu_metrics (monitor_run s₀ rs)).core_count = n
    ∧ 0 ≤ (get_cpu_metrics (monitor_run s₀ rs)).load_avg_1
    ∧ 0 ≤ (get_cpu_metrics (monitor_run s₀ rs)).load_avg_5
    ∧ 0 ≤ (get_cpu_metrics (monitor_run s₀ rs)).load_avg_15 := by
  set st := monitor_run s₀ rs with hst
  exact ⟨totalUsage_nonneg st hwf, totalUsage_le st hwf, hwf.1.2.1,
    constCores_coreCount n s₀ rs hconst, hwf.1.2.2.1, hwf.1.2.2.2.1,
    hwf.1.2.2.2.2⟩

/-- Claim C9, checked on a concrete eight-core host: `core_count = 8` and
`total_usage ∈ [0, 800]`. -/
theorem C9_cpu_metrics_range_check :
    WfState (monitor_run sample8A [some sample8B])
    ∧ ConstCores 8 sample8A [some sample8B]
    ∧ (get_cpu_metrics (monitor_run sample8A [some sample8B])).core_count = 8
    ∧ 0 ≤ (get_cpu_metrics (monitor_run sample8A [some sample8B])).total_usage
    ∧ (get_cpu_metrics (monitor_run sample8A [some sample8B])).total_usage ≤ 800 := by
  have h := C9_cpu_metrics_range sample8A [some sample8B] 8 (by decide) (by decide)
  refine ⟨by decide, by decide, h.2.2.2.1, h.1, ?_⟩
  have h2 := h.2.1
  rw [h.2.2.2.1] at h2
  norm_num at h2
  exact h2

/-- Claim C2: releasing a handle from `get_all_processes`,
`get_high_cpu_processes` or `get_cpu_metrics` frees every nested allocation
(one block for the snapshot struct, one for the record array, and one per
record's name and status string; one block for the metrics struct) exactly
once and restores the heap; the engine retains no reference (every block of
a fresh handle is new), and two handles from successive get calls — of
either kind — own disjoint blocks and are independently releasable in either
order with no double free. -/
theorem C2_release_safety (st st2 st3 : MonitorState) (t : ℚ) (h : Heap)
    (hwf : h.Wf) :
    (allocSnapshot (get_all_processes st) h).1.blocks.Nodup
    ∧ (allocSnapshot (get_all_processes st) h).1.blocks.length
        = 2 + 2 * (get_all_processes st).count
    ∧ (∀ b ∈ (allocSnapshot (get_all_processes st) h).1.blocks, b ∉ h.live)
    ∧ (∀ b ∈ (allocSnapshot (get_all_processes st) h).1.blocks,
        b ∉ (allocSnapshot (get_high_cpu_processes st2 t)
              (allocSnapshot (get_all_processes st) h).2).1.blocks)
    ∧ (∃ hh, free_process_list (allocSnapshot (get_all_processes st) h).1
          (allocSnapshot (get_all_processes st) h).2 = some hh
        ∧ ∀ j, j ∈ hh.live ↔ j ∈ h.live)
    ∧ (∃ hA hB,
        free_process_list (allocSnapshot (get_all_processes st) h).1
            (allocSnapshot (get_high_cpu_processes st2 t)
              (allocSnapshot (get_all_processes st) h).2).2 = some hA
        ∧ free_process_list (allocSnapshot (get_high_cpu_processes st2 t)
              (allocSnapshot (get_all_processes st) h).2).1 hA = some hB
        ∧ ∀ j, j ∈ hB.live ↔ j ∈ h.live)
    ∧ (∃ hA hB,
        free_process_list (allocSnapshot (get_high_cpu_processes st2 t)
              (allocSnapshot (get_all_processes st) h).2).1
            (allocSnapshot (get_high_cpu_processes st2 t)
              (allocSnapshot (get_all_processes st) h).2).2 = some hA
        ∧ free_process_list (allocSnapshot (get_all_processes st) h).1 hA = some hB
        ∧ ∀ j, j ∈ hB.live ↔ j ∈ h.live)
    ∧ (allocCpuMetrics st3 h).1.blocks.Nodup
    ∧ (∀ b ∈ (allocCpuMetrics st3 h).1.blocks, b ∉ h.live)
    ∧ (∃ hh, free_cpu_metrics (allocCpuMetrics st3 h).1
          (allocCpuMetrics st3 h).2 = some hh
        ∧ ∀ j, j ∈ hh.live ↔ j ∈ h.live)
    ∧ (∀ b ∈ (allocSnapshot (get_all_processes st) h).1.blocks,
        b ∉ (allocCpuMetrics st3
              (allocSnapshot (get_all_processes st) h).2).1.blocks)
    ∧ (∃ hA hB,
        free_process_list (allocSnapshot (get_all_processes st) h).1
            (allocCpuMetrics st3
              (allocSnapshot (get_all_processes st) h).2).2 = some hA
        ∧ free_cpu_metrics (allocCpuMetrics st3
              (allocSnapshot (get_all_processes st) h).2).1 hA = some hB
        ∧ ∀ j, j ∈ hB.live ↔ j ∈ h.live)
    ∧ (∃ hA hB,
        free_cpu_metrics (allocCpuMetrics st3
              (allocSnapshot (get_all_processes st) h).2).1
            (allocCpuMetrics st3
              (allocSnapshot (get_all_processes st) h).2).2 = some hA
        ∧ free_process_list (allocSnapshot (get_all_processes st) h).1 hA = some hB
        ∧ ∀ j, j ∈ hB.live ↔ j ∈ h.live) := by
  obtain ⟨hdisj, hfresh1, hfresh2, horder1, horder2⟩ :=
    double_alloc_free h hwf (2 + 2 * (get_all_processes st).count)
      (2 + 2 * (get_high_cpu_processes st2 t).count)
  obtain ⟨hdisjM, hfreshM1, hfreshM2, horderM1, horderM2⟩ :=
    double_alloc_free h hwf (2 + 2 * (get_all_processes st).count) 1
  exact ⟨allocBlocks_nodup h _, allocBlocks_length h _, hfresh1, hdisj,
    alloc_free_roundtrip h hwf _, horder1, horder2,
    allocBlocks_nodup h 1, allocBlocks_fresh h hwf 1,
    alloc_free_roundtrip h hwf 1, hdisjM, horderM1, horderM2⟩

/-- Claim C2, checked on a concrete state and the empty heap, for the
process-list handle's block count and the metrics handle's freshness. -/
theorem C2_release_safety_check :
    Heap.Wf ⟨0, []⟩
    ∧ (allocSnapshot (get_all_processes (monitor_run sampleA [some sampleB]))
        ⟨0, []⟩).1.blocks.length
      = 2 + 2 * (get_all_processes (monitor_run sampleA [some sampleB])).count
    ∧ ∀ b ∈ (allocCpuMetrics (monitor_run sampleA [some sampleB]) ⟨0, []⟩).1.blocks,
        b ∉ (⟨0, []⟩ : Heap).live :=
  ⟨by decide,
   (C2_release_safety (monitor_run sampleA [some sampleB])
      (monitor_run sampleA [some sampleB]) (monitor_run sampleA [some sampleB])
      2 ⟨0, []⟩ (by decide)).2.1,
   (C2_release_safety (monitor_run sampleA [some sampleB])
      (monitor_run sampleA [some sampleB]) (monitor_run sampleA [some sampleB])
      2 ⟨0, []⟩ (by decide)).2.2.2.2.2.2.2.2.1⟩

/-- Claim C7: two `get_cpu_metrics` calls with no intervening refresh yield
two handles with identical field values that own disjoint, non-empty block
sets (brand-new snapshots), and the two handles are releasable in either
order, restoring the heap. -/
theorem C7_metrics_idempotent (st : MonitorState) (h : Heap) (hwf : h.Wf) :
    (allocCpuMetrics st h).1.value
        = (allocCpuMetrics st (allocCpuMetrics st h).2).1.value
    ∧ (allocCpuMetrics st h).1.value = get_cpu_metrics st
    ∧ (∀ b ∈ (allocCpuMetrics st h).1.blocks,
        b ∉ (allocCpuMetrics st (allocCpuMetrics st h).2).1.blocks)
    ∧ (allocCpuMetrics st h).1.blocks ≠ []
    ∧ (∃ hA hB,
        free_cpu_metrics (allocCpuMetrics st h).1
            (allocCpuMetrics st (allocCpuMetrics st h).2).2 = some hA
        ∧ free_cpu_metrics (allocCpuMetrics st (allocCpuMetrics st h).2).1 hA
            = some hB
        ∧ ∀ j, j ∈ hB.live ↔ j ∈ h.live)
    ∧ (∃ hA hB,
        free_cpu_metrics (allocCpuMetrics st (allocCpuMetrics st h).2).1
            (allocCpuMetrics st (allocCpuMetrics st h).2).2 = some hA
        ∧ free_cpu_metrics (allocCpuMetrics st h).1 hA = some hB
        ∧ ∀ j, j ∈ hB.live ↔ j ∈ h.live) := by
  obtain ⟨hdisj, hfresh1, hfresh2, horder1, horder2⟩ :=
    double_alloc_free h hwf 1 1
  refine ⟨rfl, rfl, hdisj, ?_, horder1, horder2⟩
  show (allocBlocks h 1).1 ≠ []
  simp [allocBlocks]

/-- Claim C7, checked on a concrete state and the empty heap. -/
theorem C7_metrics_idempotent_check :
    Heap.Wf ⟨0, []⟩
    ∧ (allocCpuMetrics (monitor_run sampleA [some sampleB]) ⟨0, []⟩).1.value
      = (allocCpuMetrics (monitor_run sampleA [some sampleB])
          (allocCpuMetrics (monitor_run sampleA [some sampleB]) ⟨0, []⟩).2).1.value :=
  ⟨by decide,
   (C7_metrics_idempotent (monitor_run sampleA [some sampleB]) ⟨0, []⟩
      (by decide)).1⟩

/-- Claim C10: the header declares `monitor_init` and `monitor_refresh` with
return type void (and no arguments), so no sampling failure can be signaled
to the caller through the boundary API; in the modelled semantics a failed
refresh silently leaves the state (hence all subsequent get results)
unchanged. -/
theorem C10_refresh_returns_void :
    (∀ d ∈ cpuMonitorCoreHeader,
        (d.name = "monitor_init" ∨ d.name = "monitor_refresh") →
          d.ret = CType.void ∧ d.args = [])
    ∧ ∀ st : MonitorState, monitor_refresh st none = st :=
  ⟨by decide, fun _ => rfl⟩

end Reaper
